import Mathlib

/-!
Shallow embedding of the unified token program
(src/anchor-programs/unified-token-program/programs/unified-token-program/src/lib.rs).

Pubkeys are modelled as `Nat`, byte arrays and hashes as `List Nat`,
unix timestamps as `Int`, and `u64` fields as `Nat` with explicit
reduction modulo `2 ^ 64` wherever the program performs `u64`
arithmetic (release-mode wrapping semantics).  The SPL token
sub-ledger (trusted external collaborator per the spec) is modelled by
explicit balances: a transfer checks that the source balance suffices,
a mint credits the destination.  Each instruction handler is a pure
function returning `Except TxError` of the updated accounts; on an
error the caller's accounts are unchanged (Solana transactions are
atomic).  Anchor `#[account(constraint = ...)]` checks run before the
handler body and are embedded as the leading tests of each function.
-/

namespace UnifiedToken

/-- Modulus of 64-bit unsigned arithmetic: `u64` additions and
multiplications in the program wrap modulo this value. -/
def U64_MOD : Nat := 2 ^ 64

/-- `const INITIAL_ME_MINT: u64 = 48` (src line 11). -/
def INITIAL_ME_MINT : Nat := 48

/-- `const DAILY_ME_LIMIT: u64 = 24` (src line 12). -/
def DAILY_ME_LIMIT : Nat := 24

/-- `const DAY_IN_SECONDS: i64 = 86400` (src line 13). -/
def DAY_IN_SECONDS : Int := 86400

/-- `const TOKEN_DECIMALS: u8 = 9` (src line 14). -/
def TOKEN_DECIMALS : Nat := 9

/-- `const CONNECTION_MEMO_REWARD: u64 = 8` (src line 15). -/
def CONNECTION_MEMO_REWARD : Nat := 8

/-- `x * 10u64.pow(TOKEN_DECIMALS as u32)` in `u64` arithmetic:
the scaled on-ledger amount, wrapping modulo `2 ^ 64`. -/
def scale (x : Nat) : Nat := (x * 10 ^ TOKEN_DECIMALS) % U64_MOD

/-- Error codes of the program (src lines 604-629). -/
inductive ErrorCode
  | DailyLimitReached
  | UserIdTooLong
  | InvalidAmount
  | InvalidPin
  | UnauthorizedUser
  | AlreadyUnlocked
  | ConnectionFullyUnlocked
  | SameUserConnection
  deriving DecidableEq, Repr

/-- A transaction failure: either a program error code, or a rejection
by the trusted SPL token sub-ledger (transfer with insufficient
source balance). -/
inductive TxError
  | program (e : ErrorCode)
  | insufficientBalance
  deriving DecidableEq, Repr

/-- `GlobalState` account (src lines 314-321). -/
structure GlobalState where
  memo_mint : Nat
  me_escrow : Nat
  admin : Nat
  total_users : Nat
  total_connections : Nat
  deriving DecidableEq, Repr

/-- `UserAccount` (src lines 323-334). -/
structure UserAccount where
  user_id : List Nat
  me_mint : Nat
  last_mint_time : Int
  daily_minted_today : Nat
  total_me_minted : Nat
  total_me_locked : Nat
  total_memo_earned : Nat
  connections_count : Nat
  bump : Nat
  deriving DecidableEq, Repr

/-- `ConnectionAccount` (src lines 336-347). -/
structure ConnectionAccount where
  connection_id : List Nat
  user_a : Nat
  user_b : Nat
  pin_a_hash : List Nat
  pin_b_hash : List Nat
  user_a_unlocked : Bool
  user_b_unlocked : Bool
  created_at : Int
  bump : Nat
  deriving DecidableEq, Repr

/-- Copying a byte string into a zeroed `[u8; 64]` buffer:
`let len = bytes.len().min(64); array[..len].copy_from_slice(&bytes[..len])`
(src lines 49-52 and 217-219). -/
def storeFixed64 (bytes : List Nat) : List Nat :=
  let len := min bytes.length 64
  bytes.take len ++ List.replicate (64 - len) 0

/-- `initialize_global` handler (src lines 22-35). -/
def init_global (memo_mint me_escrow admin : Nat) : GlobalState :=
  { memo_mint := memo_mint, me_escrow := me_escrow, admin := admin
    total_users := 0, total_connections := 0 }

/-- Result of `initialize_user`: the created user account, the scaled
amount minted to the caller's ME associated token account, and the
updated global state. -/
structure InitUserResult where
  user_account : UserAccount
  minted_to_user_me_ata : Nat
  global_state : GlobalState
  deriving DecidableEq, Repr

/-- `initialize_user` handler (src lines 38-94): checks
`user_id.len() <= 64`, stores the id in a fixed 64-byte buffer, sets
`daily_minted_today = total_me_minted = INITIAL_ME_MINT`,
`last_mint_time = now`, mints `INITIAL_ME_MINT` (scaled) to the
caller's ME account, and increments `total_users`. -/
def init_user (gs : GlobalState) (now : Int) (user_id : List Nat)
    (bump : Nat) (me_mint_key : Nat) : Except TxError InitUserResult :=
  if user_id.length ≤ 64 then
    Except.ok
      { user_account :=
          { user_id := storeFixed64 user_id
            me_mint := me_mint_key
            last_mint_time := now
            daily_minted_today := INITIAL_ME_MINT
            total_me_minted := INITIAL_ME_MINT
            total_me_locked := 0
            total_memo_earned := 0
            connections_count := 0
            bump := bump }
        minted_to_user_me_ata := scale INITIAL_ME_MINT
        global_state := { gs with total_users := (gs.total_users + 1) % U64_MOD } }
  else
    Except.error (TxError.program ErrorCode.UserIdTooLong)

/-- Steps of `mint_daily_me` at src lines 106-113:
`time_elapsed = now - last_mint_time`,
`days_passed = time_elapsed / DAY_IN_SECONDS` (Rust `i64` division
truncates toward zero, hence `Int.tdiv`), and if `days_passed > 0`
the daily counter is reset and the timestamp updated. -/
def resetIfNewDay (ua : UserAccount) (now : Int) : UserAccount :=
  let time_elapsed := now - ua.last_mint_time
  let days_passed := Int.tdiv time_elapsed DAY_IN_SECONDS
  if 0 < days_passed then
    { ua with daily_minted_today := 0, last_mint_time := now }
  else ua

/-- Result of `mint_daily_me`: the updated user account and the scaled
amount minted to the caller's ME associated token account. -/
structure MintDailyResult where
  user_account : UserAccount
  minted_to_user_me_ata : Nat
  deriving DecidableEq, Repr

/-- `mint_daily_me` handler (src lines 97-151): after the possible
one-shot reset, requires `daily_minted_today < DAILY_ME_LIMIT`,
computes `to_mint = (DAILY_ME_LIMIT - daily_minted_today).min(DAILY_ME_LIMIT)`,
mints it (scaled) and adds it to `daily_minted_today` and
`total_me_minted`. -/
def mint_daily_me (ua : UserAccount) (now : Int) : Except TxError MintDailyResult :=
  let ua1 := resetIfNewDay ua now
  if ua1.daily_minted_today < DAILY_ME_LIMIT then
    let available_to_mint := DAILY_ME_LIMIT - ua1.daily_minted_today
    let to_mint := min available_to_mint DAILY_ME_LIMIT
    Except.ok
      { user_account :=
          { ua1 with
            daily_minted_today := (ua1.daily_minted_today + to_mint) % U64_MOD
            total_me_minted := (ua1.total_me_minted + to_mint) % U64_MOD }
        minted_to_user_me_ata := scale to_mint }
  else
    Except.error (TxError.program ErrorCode.DailyLimitReached)

/-- Result of `lock_me_for_memo`: the updated user account and the new
scaled balances of the caller's ME account, the shared escrow, and the
caller's MEMO account. -/
structure LockResult where
  user_account : UserAccount
  user_me_ata : Nat
  me_escrow : Nat
  user_memo_ata : Nat
  deriving DecidableEq, Repr

/-- `lock_me_for_memo` handler (src lines 154-202): requires
`amount > 0`, computes the scaled `amount_with_decimals`, transfers it
from the caller's ME account to the escrow (the sub-ledger rejects the
transfer when the source balance is smaller), mints the same scaled
amount of MEMO to the caller, and adds the unscaled `amount` to
`total_me_locked` and `total_memo_earned`. -/
def lock_me_for_memo (ua : UserAccount) (user_me_ata me_escrow user_memo_ata : Nat)
    (amount : Nat) : Except TxError LockResult :=
  if 0 < amount then
    let amount_with_decimals := scale amount
    if amount_with_decimals ≤ user_me_ata then
      Except.ok
        { user_account :=
            { ua with
              total_me_locked := (ua.total_me_locked + amount) % U64_MOD
              total_memo_earned := (ua.total_memo_earned + amount) % U64_MOD }
          user_me_ata := user_me_ata - amount_with_decimals
          me_escrow := me_escrow + amount_with_decimals
          user_memo_ata := user_memo_ata + amount_with_decimals }
    else
      Except.error TxError.insufficientBalance
  else
    Except.error (TxError.program ErrorCode.InvalidAmount)

/-- `create_connection` handler with its Anchor account constraint
(src lines 205-240 and 541-544): requires
`user_a_account.key() != user_b_account.key()` (else
`SameUserConnection`), stores the connection id truncated into a
64-byte buffer with both unlock flags false, and increments
`total_connections`.  The handler performs no length check on
`connection_id`. -/
def create_connection (gs : GlobalState) (now : Int) (connection_id : List Nat)
    (user_a_key user_b_key : Nat) (pin_a_hash pin_b_hash : List Nat)
    (bump : Nat) : Except TxError (ConnectionAccount × GlobalState) :=
  if user_a_key = user_b_key then
    Except.error (TxError.program ErrorCode.SameUserConnection)
  else
    Except.ok
      ({ connection_id := storeFixed64 connection_id
         user_a := user_a_key
         user_b := user_b_key
         pin_a_hash := pin_a_hash
         pin_b_hash := pin_b_hash
         user_a_unlocked := false
         user_b_unlocked := false
         created_at := now
         bump := bump },
       { gs with total_connections := (gs.total_connections + 1) % U64_MOD })

/-- Result of `unlock_connection`: the updated connection record and
user account, the new scaled balance of the caller's MEMO account, and
the total scaled MEMO minted by the call (the handler performs exactly
one `mint_to`, of the per-unlock reward, src lines 284-297). -/
structure UnlockResult where
  connection : ConnectionAccount
  user_account : UserAccount
  user_memo_ata : Nat
  memo_minted_total : Nat
  deriving DecidableEq, Repr

/-- Shared tail of `unlock_connection` (src lines 277-306): mint the
scaled `CONNECTION_MEMO_REWARD` to the caller's MEMO account and add
the unscaled reward and one connection to the user account totals. -/
def finishUnlock (conn : ConnectionAccount) (ua : UserAccount)
    (user_memo_ata : Nat) : Except TxError UnlockResult :=
  let reward_amount := scale CONNECTION_MEMO_REWARD
  Except.ok
    { connection := conn
      user_account :=
        { ua with
          total_memo_earned := (ua.total_memo_earned + CONNECTION_MEMO_REWARD) % U64_MOD
          connections_count := (ua.connections_count + 1) % U64_MOD }
      user_memo_ata := user_memo_ata + reward_amount
      memo_minted_total := reward_amount }

/-- `unlock_connection` handler with its Anchor account constraints
(src lines 243-307 and 563-575).  `hash` abstracts the external
`sha2::Sha256` one-way function applied to the submitted PIN.
Constraint order: first `!user_a_unlocked || !user_b_unlocked`
(else `ConnectionFullyUnlocked`), then membership of the caller's user
account in the connection (else `UnauthorizedUser`); then the handler
hashes the PIN, determines the caller's side, checks the PIN hash
against the counterpart's stored commitment (`InvalidPin`), checks the
caller's own flag (`AlreadyUnlocked`), sets the flag, and mints the
reward. -/
def unlock_connection (hash : List Nat → List Nat)
    (conn : ConnectionAccount) (ua : UserAccount) (user_key : Nat)
    (user_memo_ata : Nat) (pin : List Nat) : Except TxError UnlockResult :=
  if conn.user_a_unlocked && conn.user_b_unlocked then
    Except.error (TxError.program ErrorCode.ConnectionFullyUnlocked)
  else if user_key = conn.user_a ∨ user_key = conn.user_b then
    let pin_hash := hash pin
    if user_key = conn.user_a then
      if pin_hash = conn.pin_b_hash then
        if conn.user_a_unlocked then
          Except.error (TxError.program ErrorCode.AlreadyUnlocked)
        else
          finishUnlock { conn with user_a_unlocked := true } ua user_memo_ata
      else
        Except.error (TxError.program ErrorCode.InvalidPin)
    else
      if pin_hash = conn.pin_a_hash then
        if conn.user_b_unlocked then
          Except.error (TxError.program ErrorCode.AlreadyUnlocked)
        else
          finishUnlock { conn with user_b_unlocked := true } ua user_memo_ata
      else
        Except.error (TxError.program ErrorCode.InvalidPin)
  else
    Except.error (TxError.program ErrorCode.UnauthorizedUser)

/-- The connection record as observed after an unlock attempt: the
handler's updated record on success, the unchanged record on failure
(a rejected transaction mutates nothing). -/
def unlockConnAfter (hash : List Nat → List Nat) (conn : ConnectionAccount)
    (ua : UserAccount) (user_key : Nat) (user_memo_ata : Nat)
    (pin : List Nat) : ConnectionAccount :=
  match unlock_connection hash conn ua user_key user_memo_ata pin with
  | Except.ok r => r.connection
  | Except.error _ => conn

/-- Sample inputs: the user account `init_user` creates for global
state `init_global 0 1 2`, time `0`, user id `[97]`, bump `0`, ME mint
key `5`. -/
def sampleUser : UserAccount :=
  { user_id := storeFixed64 [97]
    me_mint := 5
    last_mint_time := 0
    daily_minted_today := INITIAL_ME_MINT
    total_me_minted := INITIAL_ME_MINT
    total_me_locked := 0
    total_memo_earned := 0
    connections_count := 0
    bump := 0 }

/-- `sampleUser` with the daily quota exactly exhausted. -/
def sampleUserAtLimit : UserAccount :=
  { sampleUser with daily_minted_today := DAILY_ME_LIMIT }

/-- A concrete instantiation of the external hash oracle, for sample
evaluations (the protocol logic is independent of the hash function). -/
def idHash (l : List Nat) : List Nat := l

/-- A freshly created connection between user keys 10 and 11 with PIN
commitments `[1,2,3,4]` (for A's secret) and `[5,6,7,8]` (for B's). -/
def sampleConn : ConnectionAccount :=
  { connection_id := storeFixed64 [99]
    user_a := 10
    user_b := 11
    pin_a_hash := [1, 2, 3, 4]
    pin_b_hash := [5, 6, 7, 8]
    user_a_unlocked := false
    user_b_unlocked := false
    created_at := 0
    bump := 0 }

/-- `sampleConn` after user A's side has been unlocked. -/
def sampleConnAUnlocked : ConnectionAccount :=
  { sampleConn with user_a_unlocked := true }

/-- The result of user A's successful unlock of `sampleConn`. -/
def sampleUnlockResult : UnlockResult :=
  { connection := sampleConnAUnlocked
    user_account :=
      { sampleUser with
        total_memo_earned :=
          (sampleUser.total_memo_earned + CONNECTION_MEMO_REWARD) % U64_MOD
        connections_count := (sampleUser.connections_count + 1) % U64_MOD }
    user_memo_ata := 0 + scale CONNECTION_MEMO_REWARD
    memo_minted_total := scale CONNECTION_MEMO_REWARD }

/-- The result of `sampleUser` locking 1 ME from a balance of `10 ^ 9`
scaled units. -/
def sampleLockResult : LockResult :=
  { user_account :=
      { sampleUser with
        total_me_locked := (sampleUser.total_me_locked + 1) % U64_MOD
        total_memo_earned := (sampleUser.total_memo_earned + 1) % U64_MOD }
    user_me_ata := 10 ^ 9 - scale 1
    me_escrow := 0 + scale 1
    user_memo_ata := 0 + scale 1 }

/-- `sampleUser` after one `lock_me_for_memo` call of amount `2 ^ 63`
(whose scaled transfer amount wraps to 0). -/
def sampleUserLocked : UserAccount :=
  { sampleUser with total_me_locked := 2 ^ 63, total_memo_earned := 2 ^ 63 }

/-- The result of `mint_daily_me` on `sampleUser` one day and one
second after registration. -/
def sampleMintResult : MintDailyResult :=
  { user_account :=
      { sampleUser with
        daily_minted_today := DAILY_ME_LIMIT
        last_mint_time := 86401
        total_me_minted := (sampleUser.total_me_minted + DAILY_ME_LIMIT) % U64_MOD }
    minted_to_user_me_ata := scale DAILY_ME_LIMIT }

/-- The result of `sampleUserAtLimit` locking 1 ME from a balance of
`10 ^ 9` scaled units. -/
def sampleLockAtLimitResult : LockResult :=
  { user_account :=
      { sampleUserAtLimit with
        total_me_locked := (sampleUserAtLimit.total_me_locked + 1) % U64_MOD
        total_memo_earned := (sampleUserAtLimit.total_memo_earned + 1) % U64_MOD }
    user_me_ata := 10 ^ 9 - scale 1
    me_escrow := 0 + scale 1
    user_memo_ata := 0 + scale 1 }

end UnifiedToken

namespace UnifiedToken

/-- Truncating `i64` division of a quantity at least one day by the
day length is positive. -/
theorem tdiv_day_pos {e : Int} (h : DAY_IN_SECONDS ≤ e) :
    0 < Int.tdiv e DAY_IN_SECONDS := by
  have h0 : (0 : Int) ≤ e := le_trans (by norm_num [DAY_IN_SECONDS]) h
  have hd : (0 : Int) ≤ DAY_IN_SECONDS := by norm_num [DAY_IN_SECONDS]
  rw [Int.tdiv_eq_ediv h0 hd]
  have : (1 : Int) ≤ e / DAY_IN_SECONDS := by
    rw [Int.le_ediv_iff_mul_le (by norm_num [DAY_IN_SECONDS])]
    simpa using h
  omega

/-- Elimination for successful `unlock_connection` calls: every
success path mints exactly the scaled per-unlock reward, all of it to
the caller's MEMO account, adds the unscaled reward and one connection
to the caller's totals, and sets exactly the caller's own flag, which
was previously false, after checking the submitted PIN's hash against
the counterpart's commitment. -/
theorem unlock_ok_elim {hf : List Nat → List Nat} {conn : ConnectionAccount}
    {ua : UserAccount} {key ata : Nat} {pin : List Nat} {r : UnlockResult}
    (hr : unlock_connection hf conn ua key ata pin = Except.ok r) :
    r.user_account =
      { ua with
        total_memo_earned := (ua.total_memo_earned + CONNECTION_MEMO_REWARD) % U64_MOD
        connections_count := (ua.connections_count + 1) % U64_MOD }
    ∧ r.user_memo_ata = ata + scale CONNECTION_MEMO_REWARD
    ∧ r.memo_minted_total = scale CONNECTION_MEMO_REWARD
    ∧ ((key = conn.user_a ∧ hf pin = conn.pin_b_hash
          ∧ conn.user_a_unlocked = false
          ∧ r.connection = { conn with user_a_unlocked := true })
        ∨ (¬ key = conn.user_a ∧ key = conn.user_b ∧ hf pin = conn.pin_a_hash
          ∧ conn.user_b_unlocked = false
          ∧ r.connection = { conn with user_b_unlocked := true })) := by
  simp only [unlock_connection, finishUnlock] at hr
  split at hr
  · exact absurd hr (by simp)
  next hfull =>
    split at hr
    next hmem =>
      split at hr
      next hA =>
        split at hr
        next hpin =>
          split at hr
          next hAu => exact absurd hr (by simp)
          next hAu =>
            cases hr
            exact ⟨rfl, rfl, rfl, Or.inl ⟨hA, hpin, by simpa using hAu, rfl⟩⟩
        next hpin => exact absurd hr (by simp)
      next hA =>
        have hB : key = conn.user_b := by
          cases hmem with
          | inl h => exact absurd h hA
          | inr h => exact h
        split at hr
        next hpin =>
          split at hr
          next hBu => exact absurd hr (by simp)
          next hBu =>
            cases hr
            exact ⟨rfl, rfl, rfl, Or.inr ⟨hA, hB, hpin, by simpa using hBu, rfl⟩⟩
        next hpin => exact absurd hr (by simp)
    next hmem => exact absurd hr (by simp)

/-- C1, stated: after any operation, in particular right after
`init_user`, the invariant
`daily_minted_today ≤ DAILY_ME_LIMIT` holds.  Counterexample: at the
sample inputs `init_user` succeeds and leaves
`daily_minted_today = INITIAL_ME_MINT = 48`, which exceeds
`DAILY_ME_LIMIT = 24`. -/
theorem C1_counterexample :
    (init_user (init_global 0 1 2) 0 [97] 0 5).map
        (fun r => r.user_account.daily_minted_today)
      = Except.ok INITIAL_ME_MINT
    ∧ ¬ INITIAL_ME_MINT ≤ DAILY_ME_LIMIT := by
  constructor
  · rfl
  · decide

/-- C1, amended: `init_user` leaves
`daily_minted_today = INITIAL_ME_MINT = 48 > DAILY_ME_LIMIT = 24`, so
the claimed invariant fails between registration and the account's
first successful `mint_daily_me` (`lock_me_for_memo` and
`unlock_connection` leave the field unchanged, so they keep it at 48
during that window).  Every successful `mint_daily_me` leaves
`daily_minted_today` exactly `DAILY_ME_LIMIT`, and every operation
other than registration preserves the bound
`daily_minted_today ≤ DAILY_ME_LIMIT` whenever it held before; so the
bound, once established by a successful `mint_daily_me`, is maintained
by every subsequent operation. -/
theorem C1_amended :
    (∀ gs now user_id bump mk r, init_user gs now user_id bump mk = Except.ok r →
        r.user_account.daily_minted_today = INITIAL_ME_MINT)
    ∧ (∀ ua now r, mint_daily_me ua now = Except.ok r →
        r.user_account.daily_minted_today = DAILY_ME_LIMIT)
    ∧ (∀ ua mb eb ub amt r, lock_me_for_memo ua mb eb ub amt = Except.ok r →
        r.user_account.daily_minted_today = ua.daily_minted_today)
    ∧ (∀ hf conn ua key ata pin r,
        unlock_connection hf conn ua key ata pin = Except.ok r →
        r.user_account.daily_minted_today = ua.daily_minted_today)
    ∧ (∀ ua : UserAccount, ua.daily_minted_today ≤ DAILY_ME_LIMIT →
        (∀ now r, mint_daily_me ua now = Except.ok r →
            r.user_account.daily_minted_today ≤ DAILY_ME_LIMIT)
        ∧ (∀ mb eb ub amt r, lock_me_for_memo ua mb eb ub amt = Except.ok r →
            r.user_account.daily_minted_today ≤ DAILY_ME_LIMIT)
        ∧ (∀ hf conn key ata pin r,
            unlock_connection hf conn ua key ata pin = Except.ok r →
            r.user_account.daily_minted_today ≤ DAILY_ME_LIMIT)) := by
  have hmint : ∀ ua now r, mint_daily_me ua now = Except.ok r →
      r.user_account.daily_minted_today = DAILY_ME_LIMIT := by
    intro ua now r hr
    simp only [mint_daily_me] at hr
    split at hr
    next hlt =>
      cases hr
      simp only [DAILY_ME_LIMIT, U64_MOD] at *
      omega
    next => cases hr
  have hlock : ∀ ua mb eb ub amt r, lock_me_for_memo ua mb eb ub amt = Except.ok r →
      r.user_account.daily_minted_today = ua.daily_minted_today := by
    intro ua mb eb ub amt r hr
    simp only [lock_me_for_memo] at hr
    split at hr
    · split at hr
      · cases hr; rfl
      · cases hr
    · cases hr
  have hunlock : ∀ hf conn ua key ata pin r,
      unlock_connection hf conn ua key ata pin = Except.ok r →
      r.user_account.daily_minted_today = ua.daily_minted_today := by
    intro hf conn ua key ata pin r hr
    rw [(unlock_ok_elim hr).1]
  refine ⟨?_, hmint, hlock, hunlock, ?_⟩
  · intro gs now user_id bump mk r hr
    simp only [init_user] at hr
    split at hr
    · cases hr; rfl
    · cases hr
  · intro ua hua
    refine ⟨?_, ?_, ?_⟩
    · intro now r hr
      exact le_of_eq (hmint ua now r hr)
    · intro mb eb ub amt r hr
      exact le_trans (le_of_eq (hlock ua mb eb ub amt r hr)) hua
    · intro hf conn key ata pin r hr
      exact le_trans (le_of_eq (hunlock hf conn ua key ata pin r hr)) hua

/-- Witness for C1_amended at concrete inputs. -/
theorem C1_amended_witness :
    sampleUser.daily_minted_today = INITIAL_ME_MINT
    ∧ sampleMintResult.user_account.daily_minted_today = DAILY_ME_LIMIT
    ∧ sampleUserAtLimit.daily_minted_today ≤ DAILY_ME_LIMIT
    ∧ sampleLockAtLimitResult.user_account.daily_minted_today ≤ DAILY_ME_LIMIT :=
  ⟨C1_amended.1 (init_global 0 1 2) 0 [97] 0 5
      { user_account := sampleUser
        minted_to_user_me_ata := scale INITIAL_ME_MINT
        global_state := { init_global 0 1 2 with total_users := 1 } }
      (by rfl),
   C1_amended.2.1 sampleUser 86401 sampleMintResult (by rfl),
   by decide,
   (C1_amended.2.2.2.2 sampleUserAtLimit (by decide)).2.1
     (10 ^ 9) 0 0 1 sampleLockAtLimitResult (by rfl)⟩

/-- C3: for a user account whose quota is exhausted
(`daily_minted_today = DAILY_ME_LIMIT`), calling `mint_daily_me` at
any time at least `DAY_IN_SECONDS + 1` after `last_mint_time` (in
particular after 5 whole days) performs exactly one reset
(`last_mint_time := now`) and succeeds, minting exactly
`DAILY_ME_LIMIT` and leaving `daily_minted_today = DAILY_ME_LIMIT`,
not `2 * DAILY_ME_LIMIT`: unused quota from idle days does not
accumulate. -/
theorem C3_quota_reset_once (ua : UserAccount) (now : Int)
    (hdaily : ua.daily_minted_today = DAILY_ME_LIMIT)
    (hnow : ua.last_mint_time + DAY_IN_SECONDS + 1 ≤ now) :
    mint_daily_me ua now =
      Except.ok
        { user_account :=
            { ua with
              daily_minted_today := DAILY_ME_LIMIT
              last_mint_time := now
              total_me_minted := (ua.total_me_minted + DAILY_ME_LIMIT) % U64_MOD }
          minted_to_user_me_ata := scale DAILY_ME_LIMIT } := by
  have he : DAY_IN_SECONDS ≤ now - ua.last_mint_time := by omega
  have hpos := tdiv_day_pos he
  unfold mint_daily_me resetIfNewDay
  simp only [hpos, if_true]
  norm_num [DAILY_ME_LIMIT, U64_MOD]

/-- Witness for C3 at concrete inputs. -/
theorem C3_witness :
    mint_daily_me sampleUserAtLimit 86401 =
      Except.ok
        { user_account :=
            { sampleUserAtLimit with
              daily_minted_today := DAILY_ME_LIMIT
              last_mint_time := 86401
              total_me_minted :=
                (sampleUserAtLimit.total_me_minted + DAILY_ME_LIMIT) % U64_MOD }
          minted_to_user_me_ata := scale DAILY_ME_LIMIT } :=
  C3_quota_reset_once sampleUserAtLimit 86401 (by rfl) (by decide)

/-- C4: after the possible reset, `mint_daily_me` fails with
`DailyLimitReached` if and only if
`daily_minted_today ≥ DAILY_ME_LIMIT`; otherwise it succeeds and mints
exactly the full remaining headroom
`DAILY_ME_LIMIT - daily_minted_today`, adding it to both
`daily_minted_today` (which becomes exactly `DAILY_ME_LIMIT`, hence
`≤ DAILY_ME_LIMIT`) and `total_me_minted`. -/
theorem C4_daily_limit_rule (ua : UserAccount) (now : Int) :
    (mint_daily_me ua now
        = Except.error (TxError.program ErrorCode.DailyLimitReached)
      ↔ DAILY_ME_LIMIT ≤ (resetIfNewDay ua now).daily_minted_today)
    ∧ ((resetIfNewDay ua now).daily_minted_today < DAILY_ME_LIMIT →
        mint_daily_me ua now =
          Except.ok
            { user_account :=
                { resetIfNewDay ua now with
                  daily_minted_today := DAILY_ME_LIMIT
                  total_me_minted :=
                    ((resetIfNewDay ua now).total_me_minted
                      + (DAILY_ME_LIMIT
                          - (resetIfNewDay ua now).daily_minted_today)) % U64_MOD }
              minted_to_user_me_ata :=
                scale (DAILY_ME_LIMIT
                  - (resetIfNewDay ua now).daily_minted_today) }) := by
  constructor
  · simp only [mint_daily_me]
    split
    next hlt =>
      constructor
      · intro h; exact absurd h (by simp)
      · intro h; exact absurd h (Nat.not_le.mpr hlt)
    next hge =>
      constructor
      · intro _; omega
      · intro _; rfl
  · intro hlt
    simp only [mint_daily_me]
    rw [if_pos hlt]
    have h1 : min (DAILY_ME_LIMIT - (resetIfNewDay ua now).daily_minted_today)
        DAILY_ME_LIMIT = DAILY_ME_LIMIT - (resetIfNewDay ua now).daily_minted_today := by
      omega
    rw [h1]
    have h2 : ((resetIfNewDay ua now).daily_minted_today
        + (DAILY_ME_LIMIT - (resetIfNewDay ua now).daily_minted_today)) % U64_MOD
        = DAILY_ME_LIMIT := by
      simp only [DAILY_ME_LIMIT, U64_MOD] at *
      omega
    rw [h2]

/-- Witness for C4 at concrete inputs. -/
theorem C4_witness :
    (resetIfNewDay sampleUser 86401).daily_minted_today < DAILY_ME_LIMIT
    ∧ mint_daily_me sampleUser 86401 =
        Except.ok
          { user_account :=
              { resetIfNewDay sampleUser 86401 with
                daily_minted_today := DAILY_ME_LIMIT
                total_me_minted :=
                  ((resetIfNewDay sampleUser 86401).total_me_minted
                    + (DAILY_ME_LIMIT
                        - (resetIfNewDay sampleUser 86401).daily_minted_today)) % U64_MOD }
            minted_to_user_me_ata :=
              scale (DAILY_ME_LIMIT
                - (resetIfNewDay sampleUser 86401).daily_minted_today) } :=
  ⟨by decide, (C4_daily_limit_rule sampleUser 86401).2 (by decide)⟩

/-- The one-shot reset of `mint_daily_me` touches only
`daily_minted_today` and `last_mint_time`. -/
theorem resetIfNewDay_totals (ua : UserAccount) (now : Int) :
    (resetIfNewDay ua now).total_me_minted = ua.total_me_minted
    ∧ (resetIfNewDay ua now).total_me_locked = ua.total_me_locked
    ∧ (resetIfNewDay ua now).total_memo_earned = ua.total_memo_earned
    ∧ (resetIfNewDay ua now).connections_count = ua.connections_count := by
  simp only [resetIfNewDay]
  split <;> exact ⟨rfl, rfl, rfl, rfl⟩

/-- For byte strings of length at least 64, the fixed-buffer store
keeps exactly the first 64 bytes. -/
theorem storeFixed64_of_long {bytes : List Nat} (h : 64 ≤ bytes.length) :
    storeFixed64 bytes = bytes.take 64 := by
  unfold storeFixed64
  have hm : min bytes.length 64 = 64 := by omega
  rw [hm]
  simp

/-- An unlock attempt by party A with a PIN whose hash differs from
B's commitment fails with `InvalidPin`. -/
theorem unlock_invalid_pin_a (hf : List Nat → List Nat)
    (conn : ConnectionAccount) (ua : UserAccount) (key ata : Nat)
    (pin : List Nat) (hA : key = conn.user_a)
    (hfull : (conn.user_a_unlocked && conn.user_b_unlocked) = false)
    (hpin : ¬ hf pin = conn.pin_b_hash) :
    unlock_connection hf conn ua key ata pin
      = Except.error (TxError.program ErrorCode.InvalidPin) := by
  simp [unlock_connection, hfull, hA, hpin]

/-- An unlock attempt by party B with a PIN whose hash differs from
A's commitment fails with `InvalidPin`. -/
theorem unlock_invalid_pin_b (hf : List Nat → List Nat)
    (conn : ConnectionAccount) (ua : UserAccount) (key ata : Nat)
    (pin : List Nat) (hNa : ¬ key = conn.user_a) (hB : key = conn.user_b)
    (hfull : (conn.user_a_unlocked && conn.user_b_unlocked) = false)
    (hpin : ¬ hf pin = conn.pin_a_hash) :
    unlock_connection hf conn ua key ata pin
      = Except.error (TxError.program ErrorCode.InvalidPin) := by
  have hNa' : ¬ conn.user_b = conn.user_a := by rw [hB] at hNa; exact hNa
  simp [unlock_connection, hfull, hB, hNa', hpin]

/-- A repeated unlock attempt by party A (correct PIN, own flag
already set, counterpart flag still clear) fails with
`AlreadyUnlocked`. -/
theorem unlock_already_a (hf : List Nat → List Nat)
    (conn : ConnectionAccount) (ua : UserAccount) (key ata : Nat)
    (pin : List Nat) (hA : key = conn.user_a)
    (hAu : conn.user_a_unlocked = true) (hBu : conn.user_b_unlocked = false)
    (hpin : hf pin = conn.pin_b_hash) :
    unlock_connection hf conn ua key ata pin
      = Except.error (TxError.program ErrorCode.AlreadyUnlocked) := by
  simp [unlock_connection, hA, hAu, hBu, hpin]

/-- A repeated unlock attempt by party B (correct PIN, own flag
already set, counterpart flag still clear) fails with
`AlreadyUnlocked`. -/
theorem unlock_already_b (hf : List Nat → List Nat)
    (conn : ConnectionAccount) (ua : UserAccount) (key ata : Nat)
    (pin : List Nat) (hNa : ¬ key = conn.user_a) (hB : key = conn.user_b)
    (hAu : conn.user_a_unlocked = false) (hBu : conn.user_b_unlocked = true)
    (hpin : hf pin = conn.pin_a_hash) :
    unlock_connection hf conn ua key ata pin
      = Except.error (TxError.program ErrorCode.AlreadyUnlocked) := by
  have hNa' : ¬ conn.user_b = conn.user_a := by rw [hB] at hNa; exact hNa
  simp [unlock_connection, hB, hNa', hAu, hBu, hpin]

/-- C2, stated: a successful unlock that makes both flags true mints
an additional fixed bonus to a third-party beneficiary and marks the
record complete.  Counterexample: the completing unlock of
`sampleConnAUnlocked` by user B succeeds with both flags true, yet the
total MEMO minted by the call is exactly the scaled per-unlock reward
and all of it is credited to the caller's own MEMO account — there is
no beneficiary account and no additional bonus, and no completion
field is stored. -/
theorem C2_counterexample :
    (unlock_connection idHash sampleConnAUnlocked sampleUser 11 0 [1, 2, 3, 4]).map
        (fun r => (r.connection.user_a_unlocked, r.connection.user_b_unlocked,
                   r.memo_minted_total, r.user_memo_ata))
      = Except.ok (true, true, scale CONNECTION_MEMO_REWARD,
                   scale CONNECTION_MEMO_REWARD) := by
  rfl

/-- C2, amended: every successful `unlock_connection` call — in
particular the one that makes both flags true — mints exactly the
scaled `CONNECTION_MEMO_REWARD` in total, all of it to the caller's
own MEMO account; no bonus is minted to any beneficiary and no
completion mark is stored (completion is derivable as the conjunction
of the two flags). -/
theorem C2_amended :
    ∀ hf conn ua key ata pin r,
      unlock_connection hf conn ua key ata pin = Except.ok r →
      r.memo_minted_total = scale CONNECTION_MEMO_REWARD
      ∧ r.user_memo_ata = ata + r.memo_minted_total := by
  intro hf conn ua key ata pin r hr
  obtain ⟨-, h2, h3, -⟩ := unlock_ok_elim hr
  exact ⟨h3, by rw [h3, h2]⟩

/-- Witness for C2_amended at concrete inputs. -/
theorem C2_witness :
    sampleUnlockResult.memo_minted_total = scale CONNECTION_MEMO_REWARD
    ∧ sampleUnlockResult.user_memo_ata = 0 + sampleUnlockResult.memo_minted_total :=
  C2_amended idHash sampleConn sampleUser 10 0 [5, 6, 7, 8] sampleUnlockResult (by rfl)

/-- C5: an unlock call by party A succeeds only if the hash of the
revealed secret equals B's stored commitment `pin_b_hash`
(symmetrically, party B is checked against `pin_a_hash`); with any
other secret the call fails with `InvalidPin` (the code's name for the
spec's `InvalidSecret`) and leaves both unlock flags unchanged. -/
theorem C5_secret_verification :
    (∀ hf conn ua key ata pin r,
        key = conn.user_a →
        unlock_connection hf conn ua key ata pin = Except.ok r →
        hf pin = conn.pin_b_hash)
    ∧ (∀ hf conn ua key ata pin,
        key = conn.user_a →
        (conn.user_a_unlocked && conn.user_b_unlocked) = false →
        ¬ hf pin = conn.pin_b_hash →
        unlock_connection hf conn ua key ata pin
            = Except.error (TxError.program ErrorCode.InvalidPin)
          ∧ unlockConnAfter hf conn ua key ata pin = conn)
    ∧ (∀ hf conn ua key ata pin r,
        ¬ key = conn.user_a → key = conn.user_b →
        unlock_connection hf conn ua key ata pin = Except.ok r →
        hf pin = conn.pin_a_hash)
    ∧ (∀ hf conn ua key ata pin,
        ¬ key = conn.user_a → key = conn.user_b →
        (conn.user_a_unlocked && conn.user_b_unlocked) = false →
        ¬ hf pin = conn.pin_a_hash →
        unlock_connection hf conn ua key ata pin
            = Except.error (TxError.program ErrorCode.InvalidPin)
          ∧ unlockConnAfter hf conn ua key ata pin = conn) := by
  refine ⟨?_, ?_, ?_, ?_⟩
  · intro hf conn ua key ata pin r hA hr
    rcases (unlock_ok_elim hr).2.2.2 with ⟨-, hpin, -, -⟩ | ⟨hNa, -, -, -, -⟩
    · exact hpin
    · exact absurd hA hNa
  · intro hf conn ua key ata pin hA hfull hpin
    have he := unlock_invalid_pin_a hf conn ua key ata pin hA hfull hpin
    exact ⟨he, by simp [unlockConnAfter, he]⟩
  · intro hf conn ua key ata pin r hNa hB hr
    rcases (unlock_ok_elim hr).2.2.2 with ⟨hA, -, -, -⟩ | ⟨-, -, hpin, -, -⟩
    · exact absurd hA hNa
    · exact hpin
  · intro hf conn ua key ata pin hNa hB hfull hpin
    have he := unlock_invalid_pin_b hf conn ua key ata pin hNa hB hfull hpin
    exact ⟨he, by simp [unlockConnAfter, he]⟩

/-- Witness for C5 at concrete inputs. -/
theorem C5_witness :
    unlock_connection idHash sampleConn sampleUser 10 0 [9, 9, 9, 9]
        = Except.error (TxError.program ErrorCode.InvalidPin)
      ∧ unlockConnAfter idHash sampleConn sampleUser 10 0 [9, 9, 9, 9] = sampleConn :=
  C5_secret_verification.2.1 idHash sampleConn sampleUser 10 0 [9, 9, 9, 9]
    (by rfl) (by rfl) (by decide)

/-- C6: a second unlock by the same caller with the correct
counterpart secret fails: with `AlreadyUnlocked` when the connection
is not yet fully unlocked, and — as the claim itself states for that
case — any unlock call on a connection whose two flags are both true
fails with `ConnectionFullyUnlocked` (checked first). -/
theorem C6_unlock_idempotence :
    (∀ hf conn ua key ata pin,
        conn.user_a_unlocked = true → conn.user_b_unlocked = true →
        unlock_connection hf conn ua key ata pin
          = Except.error (TxError.program ErrorCode.ConnectionFullyUnlocked))
    ∧ (∀ hf conn ua key ata pin r ua2 ata2,
        unlock_connection hf conn ua key ata pin = Except.ok r →
        ¬(r.connection.user_a_unlocked = true
            ∧ r.connection.user_b_unlocked = true) →
        unlock_connection hf r.connection ua2 key ata2 pin
          = Except.error (TxError.program ErrorCode.AlreadyUnlocked)) := by
  constructor
  · intro hf conn ua key ata pin ha hb
    simp [unlock_connection, ha, hb]
  · intro hf conn ua key ata pin r ua2 ata2 hr hnb
    rcases (unlock_ok_elim hr).2.2.2 with ⟨hA, hpin, hAu, hc⟩ | ⟨hNa, hB, hpin, hBu, hc⟩
    · have hbu : r.connection.user_b_unlocked = false := by
        rw [hc] at hnb ⊢
        simpa using hnb
      apply unlock_already_a
      · rw [hc]; exact hA
      · rw [hc]
      · exact hbu
      · rw [hc]; exact hpin
    · have hau : r.connection.user_a_unlocked = false := by
        rw [hc] at hnb ⊢
        simpa using hnb
      apply unlock_already_b
      · rw [hc]; exact hNa
      · rw [hc]; exact hB
      · exact hau
      · rw [hc]
      · rw [hc]; exact hpin

/-- Witness for C6 at concrete inputs. -/
theorem C6_witness :
    unlock_connection idHash sampleUnlockResult.connection sampleUser 10 0 [5, 6, 7, 8]
      = Except.error (TxError.program ErrorCode.AlreadyUnlocked) :=
  C6_unlock_idempotence.2 idHash sampleConn sampleUser 10 0 [5, 6, 7, 8]
    sampleUnlockResult sampleUser 0 (by rfl) (by decide)

/-- C7: `lock_me_for_memo` with amount 0 fails with `InvalidAmount`
(and, being rejected, changes no state); with a positive amount and a
caller ME balance (a `u64` quantity, hence below `2 ^ 64`) of at least
the scaled amount, it debits the scaled amount from the caller's ME
balance, credits it to the shared escrow, mints exactly the same
scaled amount of MEMO (1:1 ratio) to the caller, and adds the unscaled
amount to `total_me_locked` and `total_memo_earned`. -/
theorem C7_lock_conversion :
    (∀ ua mb eb ub, lock_me_for_memo ua mb eb ub 0
        = Except.error (TxError.program ErrorCode.InvalidAmount))
    ∧ (∀ (ua : UserAccount) (mb eb ub amount : Nat),
        0 < amount → mb < U64_MOD → amount * 10 ^ TOKEN_DECIMALS ≤ mb →
        lock_me_for_memo ua mb eb ub amount =
          Except.ok
            { user_account :=
                { ua with
                  total_me_locked := (ua.total_me_locked + amount) % U64_MOD
                  total_memo_earned := (ua.total_memo_earned + amount) % U64_MOD }
              user_me_ata := mb - amount * 10 ^ TOKEN_DECIMALS
              me_escrow := eb + amount * 10 ^ TOKEN_DECIMALS
              user_memo_ata := ub + amount * 10 ^ TOKEN_DECIMALS }) := by
  constructor
  · intro ua mb eb ub
    rfl
  · intro ua mb eb ub amount h0 hmb hle
    have hs : scale amount = amount * 10 ^ TOKEN_DECIMALS := by
      unfold scale
      exact Nat.mod_eq_of_lt (lt_of_le_of_lt hle hmb)
    simp only [lock_me_for_memo]
    rw [if_pos h0, hs, if_pos hle]

/-- Witness for C7 at concrete inputs. -/
theorem C7_witness :
    lock_me_for_memo sampleUser (10 ^ 9) 0 0 1 =
      Except.ok
        { user_account :=
            { sampleUser with
              total_me_locked := (sampleUser.total_me_locked + 1) % U64_MOD
              total_memo_earned := (sampleUser.total_memo_earned + 1) % U64_MOD }
          user_me_ata := 10 ^ 9 - 1 * 10 ^ TOKEN_DECIMALS
          me_escrow := 0 + 1 * 10 ^ TOKEN_DECIMALS
          user_memo_ata := 0 + 1 * 10 ^ TOKEN_DECIMALS } :=
  C7_lock_conversion.2 sampleUser (10 ^ 9) 0 0 1 (by decide)
    (by norm_num [U64_MOD]) (by norm_num [TOKEN_DECIMALS])

/-- C8, stated: the per-user counters `total_me_minted`,
`total_me_locked`, `total_memo_earned`, `connections_count` never
decrease across any sequence of operations.  Counterexample: the
counters are `u64` values updated with wrapping addition, and the
scaled transfer amount of `lock_me_for_memo` wraps to 0 at amount
`2 ^ 63`, so after registration (counters 0), a first lock of `2 ^ 63`
(moving 0 scaled tokens from a balance of 0) succeeds and sets
`total_me_locked = 2 ^ 63`, and an identical second lock succeeds and
wraps `total_me_locked` back to 0 — a strict decrease. -/
theorem C8_counterexample :
    (init_user (init_global 0 1 2) 0 [97] 0 5).map (fun r => r.user_account)
        = Except.ok sampleUser
    ∧ (lock_me_for_memo sampleUser 0 0 0 (2 ^ 63)).map (fun r => r.user_account)
        = Except.ok sampleUserLocked
    ∧ (lock_me_for_memo sampleUserLocked 0 0 0 (2 ^ 63)).map
        (fun r => r.user_account.total_me_locked) = Except.ok 0
    ∧ 0 < sampleUserLocked.total_me_locked := by
  refine ⟨rfl, rfl, rfl, by decide⟩

/-- C8, amended: the per-user counters never decrease across any
completed operation as long as the `u64` additions do not overflow:
under the corresponding no-overflow bounds, a successful
`mint_daily_me` leaves `total_me_minted` equal or greater and the
other three counters unchanged, a successful `lock_me_for_memo`
leaves `total_me_locked` and `total_memo_earned` equal or greater and
the other two unchanged, and a successful `unlock_connection` leaves
`total_memo_earned` and `connections_count` equal or greater and the
other two unchanged. -/
theorem C8_monotone_counters :
    (∀ ua now r, mint_daily_me ua now = Except.ok r →
        ua.total_me_minted + DAILY_ME_LIMIT < U64_MOD →
        ua.total_me_minted ≤ r.user_account.total_me_minted
        ∧ r.user_account.total_me_locked = ua.total_me_locked
        ∧ r.user_account.total_memo_earned = ua.total_memo_earned
        ∧ r.user_account.connections_count = ua.connections_count)
    ∧ (∀ ua mb eb ub amount r, lock_me_for_memo ua mb eb ub amount = Except.ok r →
        ua.total_me_locked + amount < U64_MOD →
        ua.total_memo_earned + amount < U64_MOD →
        ua.total_me_locked ≤ r.user_account.total_me_locked
        ∧ ua.total_memo_earned ≤ r.user_account.total_memo_earned
        ∧ r.user_account.total_me_minted = ua.total_me_minted
        ∧ r.user_account.connections_count = ua.connections_count)
    ∧ (∀ hf conn ua key ata pin r,
        unlock_connection hf conn ua key ata pin = Except.ok r →
        ua.total_memo_earned + CONNECTION_MEMO_REWARD < U64_MOD →
        ua.connections_count + 1 < U64_MOD →
        ua.total_memo_earned ≤ r.user_account.total_memo_earned
        ∧ ua.connections_count ≤ r.user_account.connections_count
        ∧ r.user_account.total_me_minted = ua.total_me_minted
        ∧ r.user_account.total_me_locked = ua.total_me_locked) := by
  refine ⟨?_, ?_, ?_⟩
  · intro ua now r hr hov
    obtain ⟨h1, h2, h3, h4⟩ := resetIfNewDay_totals ua now
    simp only [mint_daily_me] at hr
    split at hr
    next hlt =>
      cases hr
      refine ⟨?_, h2, h3, h4⟩
      simp only [h1, DAILY_ME_LIMIT, U64_MOD] at *
      omega
    next => cases hr
  · intro ua mb eb ub amount r hr hov1 hov2
    simp only [lock_me_for_memo] at hr
    split at hr
    next h0 =>
      split at hr
      next hle =>
        cases hr
        simp only [U64_MOD] at *
        refine ⟨?_, ?_, ?_, ?_⟩ <;> first | trivial | omega
      next => cases hr
    next => cases hr
  · intro hf conn ua key ata pin r hr hov1 hov2
    obtain ⟨h1, -, -, -⟩ := unlock_ok_elim hr
    rw [h1]
    simp only [CONNECTION_MEMO_REWARD, U64_MOD] at *
    refine ⟨?_, ?_, ?_, ?_⟩ <;> first | trivial | omega

/-- Witness for C8_monotone_counters at concrete inputs. -/
theorem C8_monotone_witness :
    sampleUser.total_me_locked ≤ sampleLockResult.user_account.total_me_locked
    ∧ sampleUser.total_memo_earned ≤ sampleLockResult.user_account.total_memo_earned
    ∧ sampleLockResult.user_account.total_me_minted = sampleUser.total_me_minted
    ∧ sampleLockResult.user_account.connections_count = sampleUser.connections_count :=
  C8_monotone_counters.2.1 sampleUser (10 ^ 9) 0 0 1 sampleLockResult
    (by rfl) (by decide) (by decide)

/-- C9: `create_connection` performs no length check on the connection
identifier: for any id longer than 64 bytes it succeeds (given
distinct parties) and silently stores only the first 64 bytes, so two
ids agreeing on their first 64 bytes yield records with identical
stored `connection_id` fields — in contrast with `init_user`, which
rejects user ids longer than 64 bytes with `UserIdTooLong`. -/
theorem C9_connection_id_truncation :
    (∀ (gs : GlobalState) (now : Int) (cid : List Nat) (ka kb : Nat)
        (pa pb : List Nat) (bump : Nat),
        64 < cid.length → ¬ ka = kb →
        create_connection gs now cid ka kb pa pb bump =
          Except.ok
            ({ connection_id := cid.take 64
               user_a := ka
               user_b := kb
               pin_a_hash := pa
               pin_b_hash := pb
               user_a_unlocked := false
               user_b_unlocked := false
               created_at := now
               bump := bump },
             { gs with
               total_connections := (gs.total_connections + 1) % U64_MOD }))
    ∧ (∀ cid1 cid2 : List Nat, 64 ≤ cid1.length → 64 ≤ cid2.length →
        cid1.take 64 = cid2.take 64 → storeFixed64 cid1 = storeFixed64 cid2)
    ∧ (∀ (gs : GlobalState) (now : Int) (uid : List Nat) (bump mk : Nat),
        64 < uid.length →
        init_user gs now uid bump mk
          = Except.error (TxError.program ErrorCode.UserIdTooLong)) := by
  refine ⟨?_, ?_, ?_⟩
  · intro gs now cid ka kb pa pb bump hlen hne
    simp only [create_connection]
    rw [if_neg hne, storeFixed64_of_long (by omega)]
  · intro cid1 cid2 h1 h2 htake
    rw [storeFixed64_of_long h1, storeFixed64_of_long h2, htake]
  · intro gs now uid bump mk hlen
    simp only [init_user]
    rw [if_neg (by omega)]

/-- Witness for C9 at concrete inputs. -/
theorem C9_witness :
    create_connection (init_global 0 1 2) 0 (List.replicate 65 7) 1 2 [1] [2] 0 =
      Except.ok
        ({ connection_id := (List.replicate 65 7).take 64
           user_a := 1
           user_b := 2
           pin_a_hash := [1]
           pin_b_hash := [2]
           user_a_unlocked := false
           user_b_unlocked := false
           created_at := 0
           bump := 0 },
         { init_global 0 1 2 with
           total_connections := ((init_global 0 1 2).total_connections + 1) % U64_MOD }) :=
  C9_connection_id_truncation.1 (init_global 0 1 2) 0 (List.replicate 65 7) 1 2
    [1] [2] 0 (by simp) (by decide)

/-- C10: the scaled on-ledger amount in `lock_me_for_memo` is
`amount * 10 ^ 9` reduced modulo `2 ^ 64`; when
`amount * 10 ^ 9 < 2 ^ 64` the two agree (the 1:1 correspondence
holds); when `2 ^ 64 ≤ amount * 10 ^ 9` the handler's own checks still
raise no error (given a sufficient balance for the wrapped amount),
the scaled tokens moved differ from `amount * 10 ^ 9`, and
`total_me_locked` and `total_memo_earned` are still incremented by the
full unscaled amount (modulo `2 ^ 64`). -/
theorem C10_scale_wraparound :
    (∀ amount : Nat, amount * 10 ^ TOKEN_DECIMALS < U64_MOD →
        scale amount = amount * 10 ^ TOKEN_DECIMALS)
    ∧ (∀ (ua : UserAccount) (mb eb ub amount : Nat),
        U64_MOD ≤ amount * 10 ^ TOKEN_DECIMALS →
        scale amount ≤ mb →
        lock_me_for_memo ua mb eb ub amount =
            Except.ok
              { user_account :=
                  { ua with
                    total_me_locked := (ua.total_me_locked + amount) % U64_MOD
                    total_memo_earned := (ua.total_memo_earned + amount) % U64_MOD }
                user_me_ata := mb - scale amount
                me_escrow := eb + scale amount
                user_memo_ata := ub + scale amount }
          ∧ scale amount ≠ amount * 10 ^ TOKEN_DECIMALS) := by
  constructor
  · intro amount h
    exact Nat.mod_eq_of_lt h
  · intro ua mb eb ub amount hbig hle
    have h0 : 0 < amount := by
      rcases Nat.eq_zero_or_pos amount with h | h
      · subst h; simp [U64_MOD] at hbig
      · exact h
    constructor
    · simp only [lock_me_for_memo]
      rw [if_pos h0, if_pos hle]
    · intro he
      have hlt : scale amount < U64_MOD := by
        unfold scale
        exact Nat.mod_lt _ (by norm_num [U64_MOD])
      rw [he] at hlt
      exact absurd hbig (not_le.mpr hlt)

/-- Witness for C10 at concrete inputs. -/
theorem C10_witness :
    (lock_me_for_memo sampleUser 0 0 0 (2 ^ 55) =
        Except.ok
          { user_account :=
              { sampleUser with
                total_me_locked := (sampleUser.total_me_locked + 2 ^ 55) % U64_MOD
                total_memo_earned := (sampleUser.total_memo_earned + 2 ^ 55) % U64_MOD }
            user_me_ata := 0 - scale (2 ^ 55)
            me_escrow := 0 + scale (2 ^ 55)
            user_memo_ata := 0 + scale (2 ^ 55) })
      ∧ scale (2 ^ 55) ≠ 2 ^ 55 * 10 ^ TOKEN_DECIMALS :=
  C10_scale_wraparound.2 sampleUser 0 0 0 (2 ^ 55)
    (by norm_num [U64_MOD, TOKEN_DECIMALS]) (by decide)

end UnifiedToken
